import Mathlib

/-!
Verification of the Bernoulli distribution core
(`tensorflow/contrib/distributions/python/ops/bernoulli.py`).

Batched arrays ("tensors") are embedded as a dtype, a shape, and a total
value function on multi-indices (meaningful on indices valid for the shape);
floating-point values are idealised as real numbers.  The array-engine
primitives the file calls (`sigmoid`, `log`, `exp`, elementwise arithmetic
with numpy-style broadcasting, `cast`, `less`/`greater`, `ones_like`) are
defined below; the two engine primitives whose implementation is not part of
this repository slice (`nn.sigmoid_cross_entropy_with_logits` and
`random_ops.random_uniform`) are modelled from the spec and are marked as
such in their doc comments.
-/

open Classical

noncomputable section

/-- Element dtypes of the array engine that occur in the Bernoulli core. -/
inductive DType
  | float32
  | float64
  | int32
  | int64
  | bool
deriving DecidableEq

/-- Whether a dtype is an integer dtype (casts to it truncate). -/
def DType.isInt : DType → Bool
  | DType.int32 => true
  | DType.int64 => true
  | _ => false

/-- A batched array: element dtype, shape, and a value at every multi-index.
The value function is total; it is meaningful on indices valid for `shape`. -/
structure Tensor where
  dtype : DType
  shape : List Nat
  data : List Nat → ℝ

/-- Broadcast two dimension sizes (numpy rule): equal, or one of them is 1. -/
def broadcastDim (a b : Nat) : Option Nat :=
  if a = b then some a else if a = 1 then some b else if b = 1 then some a else none

/-- Broadcast two reversed shape lists (aligned from the trailing dimension). -/
def broadcastRev : List Nat → List Nat → Option (List Nat)
  | [], t => some t
  | s, [] => some s
  | a :: s, b :: t =>
    match broadcastDim a b, broadcastRev s t with
    | some d, some r => some (d :: r)
    | _, _ => none

/-- Numpy-style broadcast of two shapes, `none` when incompatible. -/
def broadcastShape (s t : List Nat) : Option (List Nat) :=
  (broadcastRev s.reverse t.reverse).map List.reverse

/-- Index projection used when reading a broadcast operand of shape `s` at a
result index `idx`: drop the extra leading coordinates, and read coordinate 0
along size-1 dimensions. -/
def projIdx (s : List Nat) (idx : List Nat) : List Nat :=
  List.zipWith (fun d i => if d = 1 then 0 else i) s (idx.drop (idx.length - s.length))

/-- Validity of a multi-index for a shape. -/
def IdxOk : List Nat → List Nat → Prop
  | [], [] => True
  | d :: s, i :: idx => i < d ∧ IdxOk s idx
  | _, _ => False

/-- Elementwise unary map (shape- and dtype-preserving). -/
def Tensor.map (f : ℝ → ℝ) (t : Tensor) : Tensor :=
  ⟨t.dtype, t.shape, fun i => f (t.data i)⟩

/-- Elementwise binary operation with numpy broadcasting.  The result dtype is
the first operand's (operand dtypes agree wherever the core uses this); on a
broadcast mismatch the result shape degenerates to `[]` (the engine would
raise a fatal shape error there, a path none of the verified claims hits). -/
def Tensor.bin (f : ℝ → ℝ → ℝ) (t u : Tensor) : Tensor :=
  ⟨t.dtype, (broadcastShape t.shape u.shape).getD [],
    fun idx => f (t.data (projIdx t.shape idx)) (u.data (projIdx u.shape idx))⟩

/-- A scalar (rank-0) tensor, as produced from a Python float literal. -/
def Tensor.scalar (d : DType) (c : ℝ) : Tensor := ⟨d, [], fun _ => c⟩

/-- `array_ops.ones_like`: same shape and dtype, every entry 1. -/
def ones_like (t : Tensor) : Tensor := ⟨t.dtype, t.shape, fun _ => 1⟩

/-- `array_ops.identity`. -/
def identity (t : Tensor) : Tensor := t

/-- Value adjustment done by `math_ops.cast`: casts to an integer dtype
truncate toward zero; all other casts used by the core preserve the value. -/
def castVal (d : DType) (x : ℝ) : ℝ :=
  if d.isInt then (if 0 ≤ x then (⌊x⌋ : ℝ) else (⌈x⌉ : ℝ)) else x

/-- `math_ops.cast`. -/
def Tensor.cast (d : DType) (t : Tensor) : Tensor :=
  ⟨d, t.shape, fun i => castVal d (t.data i)⟩

/-- `math_ops.less`: broadcasting strict comparison, boolean result
(true encoded as 1, false as 0). -/
def less (t u : Tensor) : Tensor :=
  ⟨DType.bool, (broadcastShape t.shape u.shape).getD [],
    fun idx => if t.data (projIdx t.shape idx) < u.data (projIdx u.shape idx) then 1 else 0⟩

/-- The comparison `t > u` (`math_ops.greater`, via the `>` operator). -/
def greater (t u : Tensor) : Tensor :=
  ⟨DType.bool, (broadcastShape t.shape u.shape).getD [],
    fun idx => if u.data (projIdx u.shape idx) < t.data (projIdx t.shape idx) then 1 else 0⟩

/-- `math_ops.sigmoid` on one element: `1 / (1 + exp (-x))`. -/
def sigmoid (x : ℝ) : ℝ := 1 / (1 + Real.exp (-x))

/-- Modelled from the spec: the scalar formula of the array engine's stable
sigmoid cross-entropy primitive, whose implementation
(`nn.sigmoid_cross_entropy_with_logits`) is not part of this repository slice.
The spec's glossary defines it as a numerically robust formula for
`-(z * log (sigmoid x) + (1 - z) * log (1 - sigmoid x))`; the robust form is
`max x 0 - x * z + log (1 + exp (-abs x))`, proved below to agree with the
defining expression. -/
def sceVal (x z : ℝ) : ℝ := max x 0 - x * z + Real.log (1 + Real.exp (-|x|))

/-- Modelled from the spec: `nn.sigmoid_cross_entropy_with_logits` at tensor
level. Per the spec the two operands have identical shape when it is called. -/
def sigmoid_cross_entropy_with_logits (x z : Tensor) : Tensor :=
  ⟨x.dtype, x.shape, fun i => sceVal (x.data i) (z.data i)⟩

/-- Modelled from the spec: the array engine's uniform random source
(`random_ops.random_uniform`, not part of this repository slice).  The spec
requires one independent uniform value in `[0,1)` per element of `shape`,
deterministic in the seed when one is supplied and drawn from ambient
nondeterministic generator state otherwise.  `noise` is the underlying
generator and `state` the ambient state, consumed only for unseeded draws. -/
def random_uniform (noise : Nat → List Nat → List Nat → ℝ) (state : Nat)
    (seed : Option Nat) (shape : List Nat) (d : DType) : Tensor :=
  ⟨d, shape, fun idx => noise (seed.getD state) shape idx⟩

/-- The Bernoulli distribution instance: sample dtype, validation flags, and
the resolved parameter tensors (`p = sigmoid logits`, `q = 1 - p`). -/
structure Bernoulli where
  dtype : DType
  strict : Bool
  strict_statistics : Bool
  logits : Tensor
  p : Tensor
  q : Tensor
  batch_shape : List Nat
  event_shape : List Nat

/-- Errors surfaced at construction: the `ValueError` raised for a bad
parameter combination, and the `InvalidArgumentError`-style validation
failure produced by the strict range asserts. -/
inductive ConstructionError
  | valueError : String → ConstructionError
  | invalidArgument : String → ConstructionError

/-- The elementwise range condition asserted by the strict constructor:
`p <= 1` and `0 <= p` at every valid index. -/
def RangeOK (t : Tensor) : Prop :=
  ∀ idx, IdxOk t.shape idx → t.data idx ≤ 1 ∧ 0 ≤ t.data idx

/-- `Bernoulli.__init__`: fails with `ValueError` when both or neither of
`p`/`logits` are given; resolves the missing parameterization
(`p := sigmoid logits`, resp. `logits := log p - log (1 - p)` after the
optional strict range assert); caches `q := 1 - p`; batch shape is the shape
of the resolved logits, event shape is empty. -/
def Bernoulli.construct (lo po : Option Tensor) (dtype : DType)
    (strict strict_statistics : Bool) : Except ConstructionError Bernoulli :=
  match po, lo with
  | none, none => Except.error (ConstructionError.valueError "Must pass p or logits.")
  | some _, some _ =>
    Except.error (ConstructionError.valueError "Must pass either p or logits, not both.")
  | none, some l =>
    Except.ok
      { dtype := dtype, strict := strict, strict_statistics := strict_statistics,
        logits := identity l,
        p := (identity l).map sigmoid,
        q := Tensor.bin (fun a c => a - c)
          (Tensor.scalar ((identity l).map sigmoid).dtype 1) ((identity l).map sigmoid),
        batch_shape := (identity l).shape,
        event_shape := [] }
  | some pt, none =>
    if strict = true ∧ ¬ RangeOK pt then
      Except.error (ConstructionError.invalidArgument
        "Condition x <= y did not hold element-wise.")
    else
      Except.ok
        { dtype := dtype, strict := strict, strict_statistics := strict_statistics,
          logits := Tensor.bin (fun a c => a - c) ((identity pt).map Real.log)
            ((Tensor.bin (fun a c => a - c)
              (Tensor.scalar (identity pt).dtype 1) (identity pt)).map Real.log),
          p := identity pt,
          q := Tensor.bin (fun a c => a - c)
            (Tensor.scalar (identity pt).dtype 1) (identity pt),
          batch_shape := (Tensor.bin (fun a c => a - c) ((identity pt).map Real.log)
            ((Tensor.bin (fun a c => a - c)
              (Tensor.scalar (identity pt).dtype 1) (identity pt)).map Real.log)).shape,
          event_shape := [] }

/-- The instances reachable through the constructor. -/
def Bernoulli.Constructed (b : Bernoulli) : Prop :=
  ∃ lo po d st ss, Bernoulli.construct lo po d st ss = Except.ok b

/-- `Bernoulli.log_prob`: cast the event to the logits dtype, broadcast each
operand by multiplying with a ones-array of the other's shape, and negate the
engine's stable sigmoid cross-entropy. -/
def Bernoulli.log_prob (b : Bernoulli) (event : Tensor) : Tensor :=
  (sigmoid_cross_entropy_with_logits
    (Tensor.bin (fun a c => a * c) (ones_like (Tensor.cast b.logits.dtype event)) b.logits)
    (Tensor.bin (fun a c => a * c) (ones_like b.logits)
      (Tensor.cast b.logits.dtype event))).map Neg.neg

/-- The uniform noise tensor drawn inside `Bernoulli.sample`: shape
`n :: batch_shape`, dtype fixed to float32 by the source. -/
def Bernoulli.sampleUniform (b : Bernoulli) (noise : Nat → List Nat → List Nat → ℝ)
    (state : Nat) (seed : Option Nat) (n : Nat) : Tensor :=
  random_uniform noise state seed (n :: b.batch_shape) DType.float32

/-- `Bernoulli.sample`: threshold float32 uniform noise of shape
`n :: batch_shape` against `p` and cast the boolean outcome to the sample
dtype. -/
def Bernoulli.sample (b : Bernoulli) (noise : Nat → List Nat → List Nat → ℝ)
    (state : Nat) (seed : Option Nat) (n : Nat) : Tensor :=
  Tensor.cast b.dtype (less (b.sampleUniform noise state seed n) b.p)

/-- `Bernoulli.entropy`: `-logits * (sigmoid logits - 1) + log (exp (-logits) + 1)`. -/
def Bernoulli.entropy (b : Bernoulli) : Tensor :=
  Tensor.bin (fun a c => a + c)
    (Tensor.bin (fun a c => a * c) (b.logits.map Neg.neg)
      (Tensor.bin (fun a c => a - c) (b.logits.map sigmoid)
        (Tensor.scalar b.logits.dtype 1)))
    ((Tensor.bin (fun a c => a + c) ((b.logits.map Neg.neg).map Real.exp)
      (Tensor.scalar b.logits.dtype 1)).map Real.log)

/-- `Bernoulli.mean`: the probability tensor, unchanged. -/
def Bernoulli.mean (b : Bernoulli) : Tensor := identity b.p

/-- `Bernoulli.mode`: `cast (p > q)`. -/
def Bernoulli.mode (b : Bernoulli) : Tensor := Tensor.cast b.dtype (greater b.p b.q)

/-- `Bernoulli.variance`: `q * p`. -/
def Bernoulli.variance (b : Bernoulli) : Tensor :=
  Tensor.bin (fun a c => a * c) b.q b.p

/-- `Bernoulli.std`: `sqrt (variance)`. -/
def Bernoulli.std (b : Bernoulli) : Tensor := b.variance.map Real.sqrt

/-! ### Structural lemmas for indices, projection and broadcasting -/

@[simp] theorem idxOk_nil_nil : IdxOk [] [] := trivial

@[simp] theorem idxOk_cons (d i : Nat) (s t : List Nat) :
    IdxOk (d :: s) (i :: t) ↔ i < d ∧ IdxOk s t := Iff.rfl

@[simp] theorem idxOk_nil_cons (i : Nat) (t : List Nat) : ¬ IdxOk [] (i :: t) :=
  fun h => h

@[simp] theorem idxOk_cons_nil (d : Nat) (s : List Nat) : ¬ IdxOk (d :: s) [] :=
  fun h => h

theorem idxOk_length (s idx : List Nat) (h : IdxOk s idx) : idx.length = s.length := by
  induction s generalizing idx with
  | nil =>
    cases idx with
    | nil => rfl
    | cons i t => exact absurd h (idxOk_nil_cons i t)
  | cons d s ih =>
    cases idx with
    | nil => exact absurd h (idxOk_cons_nil d s)
    | cons i t => simpa using ih t ((idxOk_cons d i s t).1 h).2

theorem zipProj_eq (s idx : List Nat) (h : IdxOk s idx) :
    List.zipWith (fun d i => if d = 1 then 0 else i) s idx = idx := by
  induction s generalizing idx with
  | nil =>
    cases idx with
    | nil => rfl
    | cons i t => exact absurd h (idxOk_nil_cons i t)
  | cons d s ih =>
    cases idx with
    | nil => exact absurd h (idxOk_cons_nil d s)
    | cons i t =>
      obtain ⟨h1, h2⟩ := (idxOk_cons d i s t).1 h
      have hd : (if d = 1 then 0 else i) = i := by
        by_cases hone : d = 1
        · subst hone
          simp
          omega
        · simp [hone]
      simp [hd, ih t h2]

@[simp] theorem projIdx_nil (idx : List Nat) : projIdx [] idx = [] := rfl

theorem projIdx_self (s idx : List Nat) (h : IdxOk s idx) : projIdx s idx = idx := by
  unfold projIdx
  rw [idxOk_length s idx h, Nat.sub_self, List.drop_zero]
  exact zipProj_eq s idx h

theorem projIdx_cons (s idx : List Nat) (i : Nat) (h : IdxOk s idx) :
    projIdx s (i :: idx) = idx := by
  unfold projIdx
  have hl : (i :: idx).length - s.length = 1 := by
    simp [idxOk_length s idx h]
  rw [hl]
  simpa using zipProj_eq s idx h

@[simp] theorem broadcastDim_self (a : Nat) : broadcastDim a a = some a := by
  simp [broadcastDim]

theorem broadcastRev_append (l r : List Nat) : broadcastRev (l ++ r) l = some (l ++ r) := by
  induction l with
  | nil =>
    cases r with
    | nil => rfl
    | cons a t => rfl
  | cons a l ih => simp [broadcastRev, ih]

@[simp] theorem broadcastShape_self (s : List Nat) : broadcastShape s s = some s := by
  have h := broadcastRev_append s.reverse []
  simp only [List.append_nil] at h
  simp [broadcastShape, h]

@[simp] theorem broadcastShape_cons (n : Nat) (s : List Nat) :
    broadcastShape (n :: s) s = some (n :: s) := by
  have h := broadcastRev_append s.reverse [n]
  simp [broadcastShape, h]

@[simp] theorem broadcastShape_nil_left (s : List Nat) : broadcastShape [] s = some s := by
  simp [broadcastShape, broadcastRev]

@[simp] theorem broadcastShape_nil_right (s : List Nat) : broadcastShape s [] = some s := by
  cases s with
  | nil => rfl
  | cons a t => simp [broadcastShape, broadcastRev]

/-! ### Pointwise evaluation lemmas for the tensor combinators -/

@[simp] theorem map_shape (f : ℝ → ℝ) (t : Tensor) : (t.map f).shape = t.shape := rfl

@[simp] theorem map_data (f : ℝ → ℝ) (t : Tensor) (idx : List Nat) :
    (t.map f).data idx = f (t.data idx) := rfl

theorem bin_scalar_left_shape (f : ℝ → ℝ → ℝ) (d : DType) (c : ℝ) (t : Tensor) :
    (Tensor.bin f (Tensor.scalar d c) t).shape = t.shape := by
  simp [Tensor.bin, Tensor.scalar]

theorem bin_scalar_left_data (f : ℝ → ℝ → ℝ) (d : DType) (c : ℝ) (t : Tensor)
    (idx : List Nat) (h : IdxOk t.shape idx) :
    (Tensor.bin f (Tensor.scalar d c) t).data idx = f c (t.data idx) := by
  simp [Tensor.bin, Tensor.scalar, projIdx_self t.shape idx h]

theorem bin_scalar_right_shape (f : ℝ → ℝ → ℝ) (d : DType) (c : ℝ) (t : Tensor) :
    (Tensor.bin f t (Tensor.scalar d c)).shape = t.shape := by
  simp [Tensor.bin, Tensor.scalar]

theorem bin_scalar_right_data (f : ℝ → ℝ → ℝ) (d : DType) (c : ℝ) (t : Tensor)
    (idx : List Nat) (h : IdxOk t.shape idx) :
    (Tensor.bin f t (Tensor.scalar d c)).data idx = f (t.data idx) c := by
  simp [Tensor.bin, Tensor.scalar, projIdx_self t.shape idx h]

theorem bin_same_shape (f : ℝ → ℝ → ℝ) (t u : Tensor) (h : t.shape = u.shape) :
    (Tensor.bin f t u).shape = t.shape := by
  simp [Tensor.bin, h]

theorem bin_same_data (f : ℝ → ℝ → ℝ) (t u : Tensor) (h : t.shape = u.shape)
    (idx : List Nat) (hi : IdxOk t.shape idx) :
    (Tensor.bin f t u).data idx = f (t.data idx) (u.data idx) := by
  have hu : IdxOk u.shape idx := h ▸ hi
  simp [Tensor.bin, projIdx_self t.shape idx hi, projIdx_self u.shape idx hu]

theorem castVal_zero (d : DType) : castVal d 0 = 0 := by
  simp [castVal]

theorem castVal_one (d : DType) : castVal d 1 = 1 := by
  by_cases h : d.isInt <;> norm_num [castVal, h]

theorem castVal_indicator (d : DType) (c : Prop) [Decidable c] :
    castVal d (if c then 1 else 0) = if c then 1 else 0 := by
  by_cases hc : c <;> simp [hc, castVal_one, castVal_zero]

/-! ### Real-analysis lemmas about the sigmoid and the stable cross-entropy -/

theorem one_add_exp_pos (y : ℝ) : 0 < 1 + Real.exp y := by
  have := Real.exp_pos y
  linarith

theorem one_add_exp_ne_zero (y : ℝ) : 1 + Real.exp y ≠ 0 :=
  ne_of_gt (one_add_exp_pos y)

theorem sigmoid_pos (x : ℝ) : 0 < sigmoid x := by
  unfold sigmoid
  positivity

theorem sigmoid_lt_one (x : ℝ) : sigmoid x < 1 := by
  unfold sigmoid
  rw [div_lt_one (one_add_exp_pos (-x))]
  have := Real.exp_pos (-x)
  linarith

theorem one_sub_sigmoid (x : ℝ) :
    1 - sigmoid x = Real.exp (-x) / (1 + Real.exp (-x)) := by
  unfold sigmoid
  field_simp

theorem log_sigmoid (x : ℝ) :
    Real.log (sigmoid x) = -Real.log (1 + Real.exp (-x)) := by
  unfold sigmoid
  rw [one_div, Real.log_inv]

theorem log_one_sub_sigmoid (x : ℝ) :
    Real.log (1 - sigmoid x) = -x - Real.log (1 + Real.exp (-x)) := by
  rw [one_sub_sigmoid, Real.log_div (Real.exp_ne_zero (-x)) (one_add_exp_ne_zero (-x)),
    Real.log_exp]

/-- The round trip `logits = log (sigmoid logits) - log (1 - sigmoid logits)`
is exact over the reals. -/
theorem logit_sigmoid (x : ℝ) :
    Real.log (sigmoid x) - Real.log (1 - sigmoid x) = x := by
  rw [log_sigmoid, log_one_sub_sigmoid]
  ring

/-- The round trip `sigmoid (log p - log (1 - p)) = p` is exact over the reals
for `p` in the open unit interval. -/
theorem sigmoid_logit (a : ℝ) (h0 : 0 < a) (h1 : a < 1) :
    sigmoid (Real.log a - Real.log (1 - a)) = a := by
  have h1a : 0 < 1 - a := by linarith
  unfold sigmoid
  rw [neg_sub, Real.exp_sub, Real.exp_log h1a, Real.exp_log h0]
  field_simp

theorem sigmoid_zero : sigmoid 0 = 1 / 2 := by
  norm_num [sigmoid, Real.exp_zero]

/-- The stable sigmoid cross-entropy formula agrees with its defining
expression `-(z * log (sigmoid x) + (1 - z) * log (1 - sigmoid x))`. -/
theorem sceVal_eq (x z : ℝ) :
    sceVal x z = -(z * Real.log (sigmoid x) + (1 - z) * Real.log (1 - sigmoid x)) := by
  unfold sceVal
  rw [log_sigmoid, log_one_sub_sigmoid]
  rcases le_or_lt 0 x with hx | hx
  · rw [abs_of_nonneg hx, max_eq_left hx]
    ring
  · rw [abs_of_neg hx, max_eq_right (le_of_lt hx), neg_neg]
    have hsplit : Real.log (1 + Real.exp x) = x + Real.log (1 + Real.exp (-x)) := by
      have hprod : Real.exp x * (1 + Real.exp (-x)) = 1 + Real.exp x := by
        rw [mul_add, mul_one, ← Real.exp_add]
        simp [add_comm]
      rw [← hprod, Real.log_mul (Real.exp_ne_zero x) (one_add_exp_ne_zero (-x)),
        Real.log_exp]
    rw [hsplit]
    ring

/-! ### Constructor inversion -/

@[simp] theorem identity_def (t : Tensor) : identity t = t := rfl

/-- The logits tensor the constructor derives from a probability tensor. -/
theorem plogits_shape (pt : Tensor) (d : DType) :
    (Tensor.bin (fun a c => a - c) (pt.map Real.log)
      ((Tensor.bin (fun a c => a - c) (Tensor.scalar d 1) pt).map Real.log)).shape
      = pt.shape := by
  rw [bin_same_shape]
  · rfl
  · simp [bin_scalar_left_shape]

theorem plogits_data (pt : Tensor) (d : DType) (idx : List Nat) (h : IdxOk pt.shape idx) :
    (Tensor.bin (fun a c => a - c) (pt.map Real.log)
      ((Tensor.bin (fun a c => a - c) (Tensor.scalar d 1) pt).map Real.log)).data idx
      = Real.log (pt.data idx) - Real.log (1 - pt.data idx) := by
  have hsh : (pt.map Real.log).shape =
      ((Tensor.bin (fun a c => a - c) (Tensor.scalar d 1) pt).map Real.log).shape := by
    simp [bin_scalar_left_shape]
  rw [bin_same_data _ _ _ hsh idx h, map_data, map_data,
    bin_scalar_left_data _ _ _ _ idx h]

/-- Every constructed instance stores `q = 1 - p` (as the broadcast engine
term), has `p` of the same shape as `logits`, and derives the batch shape from
the logits shape. -/
theorem constructed_fields (b : Bernoulli) (hb : b.Constructed) :
    b.p.shape = b.logits.shape ∧ b.batch_shape = b.logits.shape ∧
      b.q = Tensor.bin (fun a c => a - c) (Tensor.scalar b.p.dtype 1) b.p := by
  obtain ⟨lo, po, d, st, ss, h⟩ := hb
  cases po with
  | none =>
    cases lo with
    | none => simp [Bernoulli.construct] at h
    | some l =>
      simp only [Bernoulli.construct, Except.ok.injEq] at h
      subst h
      exact ⟨rfl, rfl, rfl⟩
  | some pt =>
    cases lo with
    | some l => simp [Bernoulli.construct] at h
    | none =>
      simp only [Bernoulli.construct] at h
      split at h
      · exact absurd h (by simp)
      · simp only [Except.ok.injEq] at h
        subst h
        refine ⟨?_, rfl, rfl⟩
        exact (plogits_shape pt pt.dtype).symm

theorem constructed_q_shape (b : Bernoulli) (hb : b.Constructed) :
    b.q.shape = b.p.shape := by
  obtain ⟨_, _, hq⟩ := constructed_fields b hb
  rw [hq]
  exact bin_scalar_left_shape _ _ _ _

theorem constructed_q_data (b : Bernoulli) (hb : b.Constructed) (idx : List Nat)
    (h : IdxOk b.p.shape idx) : b.q.data idx = 1 - b.p.data idx := by
  obtain ⟨_, _, hq⟩ := constructed_fields b hb
  rw [hq]
  exact bin_scalar_left_data _ _ _ _ idx h

/-! ### Concrete instances used by the witnesses -/

/-- A concrete scalar logits tensor with value 0 (so probability 1/2). -/
def l0 : Tensor := ⟨DType.float32, [], fun _ => 0⟩

/-- The instance the constructor builds from logits `l0`. -/
def bern0 : Bernoulli :=
  ⟨DType.int32, true, true, l0, l0.map sigmoid,
    Tensor.bin (fun a c => a - c) (Tensor.scalar DType.float32 1) (l0.map sigmoid),
    [], []⟩

theorem bern0_constructed : bern0.Constructed :=
  ⟨some l0, none, DType.int32, true, true, rfl⟩

/-- A concrete scalar event tensor with value 1. -/
def e0 : Tensor := ⟨DType.int32, [], fun _ => 1⟩

/-- A concrete out-of-range probability tensor (value 3/2). -/
def badP : Tensor := ⟨DType.float32, [], fun _ => 3 / 2⟩

def badQ : Tensor :=
  Tensor.bin (fun a c => a - c) (Tensor.scalar DType.float32 1) badP

def badLg : Tensor :=
  Tensor.bin (fun a c => a - c) (badP.map Real.log) (badQ.map Real.log)

/-- The instance the non-strict constructor builds from `badP`. -/
def badB : Bernoulli := ⟨DType.int32, false, true, badLg, badP, badQ, [], []⟩

/-- A concrete in-range probability tensor (value 1/2). -/
def halfP : Tensor := ⟨DType.float32, [], fun _ => 1 / 2⟩

def halfQ : Tensor :=
  Tensor.bin (fun a c => a - c) (Tensor.scalar DType.float32 1) halfP

def halfLg : Tensor :=
  Tensor.bin (fun a c => a - c) (halfP.map Real.log) (halfQ.map Real.log)

/-- The instance the non-strict constructor builds from `halfP`. -/
def halfB : Bernoulli := ⟨DType.int32, false, true, halfLg, halfP, halfQ, [], []⟩

/-! ### The claims -/

/-- Claim C1: for every instance and every event tensor broadcastable against
the batch shape of the logits (whose dtype is a floating type, so the cast to
it preserves values), `log_prob` returns a tensor of the common broadcast
shape whose every entry is the negation of the stable sigmoid cross-entropy
of the broadcast logits entry against the broadcast, cast event entry. -/
theorem claim_C1 (b : Bernoulli) (e : Tensor) (c : List Nat)
    (hf : b.logits.dtype.isInt = false)
    (hb : broadcastShape e.shape b.logits.shape = some c) :
    (b.log_prob e).shape = c ∧
      ∀ idx, IdxOk c idx →
        (b.log_prob e).data idx =
          -sceVal (b.logits.data (projIdx b.logits.shape idx))
            (e.data (projIdx e.shape idx)) := by
  constructor
  · simp [Bernoulli.log_prob, sigmoid_cross_entropy_with_logits, Tensor.bin,
      Tensor.cast, ones_like, hb]
  · intro idx _
    simp [Bernoulli.log_prob, sigmoid_cross_entropy_with_logits, Tensor.bin,
      Tensor.cast, ones_like, castVal, hf]

theorem claim_C1_witness :
    (bern0.log_prob e0).shape = [] ∧
      (bern0.log_prob e0).data [] = -sceVal 0 1 := by
  have h := claim_C1 bern0 e0 [] rfl rfl
  refine ⟨h.1, ?_⟩
  have h2 := h.2 [] idxOk_nil_nil
  simpa [bern0, l0, e0] using h2

/-- Test for the `ValueError` raised for a bad parameter combination. -/
def isValueError : Except ConstructionError Bernoulli → Prop
  | Except.error (ConstructionError.valueError _) => True
  | _ => False

/-- Claim C2: supplying both parameters, or neither, fails with the
`ValueError`; supplying exactly one never produces that error (the strict
range assert is a different, `InvalidArgument`-class failure). -/
theorem claim_C2 (lt pt : Tensor) (d : DType) (st ss : Bool) :
    isValueError (Bernoulli.construct (some lt) (some pt) d st ss) ∧
      isValueError (Bernoulli.construct none none d st ss) ∧
      ¬ isValueError (Bernoulli.construct (some lt) none d st ss) ∧
      ¬ isValueError (Bernoulli.construct none (some pt) d st ss) := by
  refine ⟨trivial, trivial, ?_, ?_⟩
  · simp [Bernoulli.construct, isValueError]
  · simp only [Bernoulli.construct]
    split
    · simp [isValueError]
    · simp [isValueError]

/-- Claim C3: a probability entry outside `[0, 1]` makes strict construction
fail with the validation failure, while non-strict construction succeeds with
no range check and `mean` returns the out-of-range tensor unchanged. -/
theorem claim_C3 (pt : Tensor) (d : DType) (ss : Bool) (idx : List Nat)
    (hi : IdxOk pt.shape idx) (hout : pt.data idx < 0 ∨ 1 < pt.data idx) :
    (∃ msg, Bernoulli.construct none (some pt) d true ss =
        Except.error (ConstructionError.invalidArgument msg)) ∧
      ∃ b, Bernoulli.construct none (some pt) d false ss = Except.ok b ∧
        b.mean = pt := by
  have hrange : ¬ RangeOK pt := by
    intro hr
    rcases hr idx hi with ⟨h1, h2⟩
    rcases hout with h | h
    · linarith
    · linarith
  constructor
  · simp only [Bernoulli.construct]
    split
    · exact ⟨_, rfl⟩
    · rename_i hcond
      exact absurd ⟨by trivial, hrange⟩ hcond
  · simp only [Bernoulli.construct]
    rw [if_neg (by simp)]
    exact ⟨_, rfl, rfl⟩

theorem claim_C3_witness :
    (∃ msg, Bernoulli.construct none (some badP) DType.int32 true true =
        Except.error (ConstructionError.invalidArgument msg)) ∧
      ∃ b, Bernoulli.construct none (some badP) DType.int32 false true = Except.ok b ∧
        b.mean = badP :=
  claim_C3 badP DType.int32 true [] idxOk_nil_nil (Or.inr (by norm_num [badP]))

/-- Mutual consistency of the stored parameter pair. -/
def Consistent (b : Bernoulli) : Prop :=
  ∀ idx, IdxOk b.logits.shape idx →
    b.p.data idx = sigmoid (b.logits.data idx) ∧
      b.logits.data idx = Real.log (b.p.data idx) - Real.log (1 - b.p.data idx)

/-- Claim C4: whichever parameterization was supplied, the stored logits and
probability are mutually consistent — `p = sigmoid logits` and
`logits = log p - log (1 - p)` — exactly over the reals, the probability case
for supplied entries in the open interval (0, 1). -/
theorem claim_C4 (d : DType) (st ss : Bool) :
    (∀ lt b, Bernoulli.construct (some lt) none d st ss = Except.ok b → Consistent b) ∧
      ∀ pt b, (∀ idx, IdxOk pt.shape idx → 0 < pt.data idx ∧ pt.data idx < 1) →
        Bernoulli.construct none (some pt) d st ss = Except.ok b → Consistent b := by
  constructor
  · intro lt b h
    simp only [Bernoulli.construct, Except.ok.injEq] at h
    subst h
    intro idx _
    refine ⟨rfl, ?_⟩
    exact (logit_sigmoid (lt.data idx)).symm
  · intro pt b hr h
    simp only [Bernoulli.construct] at h
    split at h
    · exact absurd h (by simp)
    · simp only [Except.ok.injEq] at h
      subst h
      intro idx hidx
      simp only [identity_def] at hidx
      rw [plogits_shape pt pt.dtype] at hidx
      refine ⟨?_, ?_⟩
      · simp only [identity_def]
        rw [plogits_data pt pt.dtype idx hidx]
        exact (sigmoid_logit (pt.data idx) (hr idx hidx).1 (hr idx hidx).2).symm
      · simp only [identity_def]
        rw [plogits_data pt pt.dtype idx hidx]

theorem claim_C4_witness :
    bern0.p.data [] = sigmoid (bern0.logits.data []) ∧
      halfB.p.data [] = sigmoid (halfB.logits.data []) := by
  have h1 := (claim_C4 DType.int32 true true).1 l0 bern0 rfl
  have hc : Bernoulli.construct none (some halfP) DType.int32 false true =
      Except.ok halfB := by
    simp only [Bernoulli.construct]
    rw [if_neg (by simp)]
    rfl
  have h2 := (claim_C4 DType.int32 false true).2 halfP halfB
    (fun idx _ => by norm_num [halfP]) hc
  exact ⟨(h1 [] idxOk_nil_nil).1, (h2 [] idxOk_nil_nil).1⟩

/-- Claim C5: for every constructed instance, sample returns a tensor of
shape `n :: batch_shape` in the sample dtype whose element at `i :: idx` is 1
exactly when the uniform draw at that position is strictly below the
probability at `idx` (broadcast over the leading sample dimension), else 0. -/
theorem claim_C5 (b : Bernoulli) (hb : b.Constructed)
    (noise : Nat → List Nat → List Nat → ℝ) (state : Nat) (seed : Option Nat)
    (n : Nat) :
    (b.sample noise state seed n).shape = n :: b.batch_shape ∧
      (b.sample noise state seed n).dtype = b.dtype ∧
      ∀ i idx, i < n → IdxOk b.batch_shape idx →
        (b.sample noise state seed n).data (i :: idx) =
          (if (b.sampleUniform noise state seed n).data (i :: idx) < b.p.data idx
            then 1 else 0) := by
  obtain ⟨hp, hbatch, hq⟩ := constructed_fields b hb
  have hps : b.p.shape = b.batch_shape := by rw [hp, hbatch]
  refine ⟨?_, rfl, ?_⟩
  · show (less (b.sampleUniform noise state seed n) b.p).shape = _
    simp [less, Bernoulli.sampleUniform, random_uniform, hps]
  · intro i idx hi hidx
    have hpi : IdxOk b.p.shape idx := by rw [hps]; exact hidx
    have hppi : projIdx b.p.shape (i :: idx) = idx := projIdx_cons _ _ _ hpi
    have hupi : projIdx (n :: b.batch_shape) (i :: idx) = i :: idx :=
      projIdx_self _ _ ((idxOk_cons n i b.batch_shape idx).2 ⟨hi, hidx⟩)
    show castVal b.dtype
        ((less (b.sampleUniform noise state seed n) b.p).data (i :: idx)) = _
    simp only [less, Bernoulli.sampleUniform, random_uniform, hppi, hupi]
    exact castVal_indicator b.dtype _

theorem claim_C5_witness :
    (bern0.sample (fun _ _ _ => 1 / 3) 0 (some 42) 2).shape = [2] ∧
      (bern0.sample (fun _ _ _ => 1 / 3) 0 (some 42) 2).data [0] =
        (if (bern0.sampleUniform (fun _ _ _ => 1 / 3) 0 (some 42) 2).data [0] <
          bern0.p.data [] then 1 else 0) := by
  have h := claim_C5 bern0 bern0_constructed (fun _ _ _ => 1 / 3) 0 (some 42) 2
  exact ⟨h.1, h.2.2 0 [] (by norm_num) idxOk_nil_nil⟩

/-- Claim C6: mode is elementwise 1 where `p` is strictly greater than the
stored complement `q` and 0 otherwise, cast to the sample dtype; the tie at
`p = 1/2` resolves to 0 because the comparison is strict. -/
theorem claim_C6 (b : Bernoulli) (hb : b.Constructed) :
    b.mode.dtype = b.dtype ∧ b.mode.shape = b.p.shape ∧
      ∀ idx, IdxOk b.p.shape idx →
        b.mode.data idx = (if b.q.data idx < b.p.data idx then 1 else 0) ∧
          (b.p.data idx = 1 / 2 → b.mode.data idx = 0) := by
  have hqs := constructed_q_shape b hb
  refine ⟨rfl, ?_, ?_⟩
  · show (greater b.p b.q).shape = b.p.shape
    simp [greater, hqs]
  · intro idx hidx
    have hqi : IdxOk b.q.shape idx := by rw [hqs]; exact hidx
    have h1 : b.mode.data idx = (if b.q.data idx < b.p.data idx then 1 else 0) := by
      show castVal b.dtype ((greater b.p b.q).data idx) = _
      simp only [greater, projIdx_self b.p.shape idx hidx,
        projIdx_self b.q.shape idx hqi]
      exact castVal_indicator b.dtype _
    refine ⟨h1, fun hhalf => ?_⟩
    rw [h1, constructed_q_data b hb idx hidx, hhalf]
    norm_num

theorem claim_C6_witness :
    bern0.mode.dtype = DType.int32 ∧ bern0.mode.data [] = 0 := by
  have h := claim_C6 bern0 bern0_constructed
  refine ⟨h.1, ?_⟩
  apply (h.2.2 [] idxOk_nil_nil).2
  show sigmoid (l0.data []) = 1 / 2
  show sigmoid 0 = 1 / 2
  exact sigmoid_zero

/-- Claim C7: entropy is elementwise
`-logits * (sigmoid logits - 1) + log (exp (-logits) + 1)`. -/
theorem claim_C7 (b : Bernoulli) :
    b.entropy.shape = b.logits.shape ∧
      ∀ idx, IdxOk b.logits.shape idx →
        b.entropy.data idx =
          -b.logits.data idx * (sigmoid (b.logits.data idx) - 1) +
            Real.log (Real.exp (-b.logits.data idx) + 1) := by
  constructor
  · simp [Bernoulli.entropy, bin_same_shape, bin_scalar_right_shape]
  · intro idx hidx
    simp [Bernoulli.entropy, bin_same_data, bin_scalar_right_data, bin_same_shape,
      bin_scalar_right_shape, hidx]

theorem claim_C7_witness :
    bern0.entropy.shape = [] ∧
      bern0.entropy.data [] =
        -(0 : ℝ) * (sigmoid 0 - 1) + Real.log (Real.exp (-(0 : ℝ)) + 1) := by
  have h := claim_C7 bern0
  exact ⟨h.1, h.2 [] idxOk_nil_nil⟩

/-- Claim C8 counterexample: the non-strict constructor accepts the
out-of-range probability `3/2`, and the resulting variance entry
`(1 - 3/2) * (3/2)` is negative — refuting "variance is always nonnegative"
as stated for every instance. -/
theorem claim_C8_counterexample :
    Bernoulli.construct none (some badP) DType.int32 false true = Except.ok badB ∧
      badB.variance.data [] < 0 := by
  constructor
  · simp only [Bernoulli.construct]
    rw [if_neg (by simp)]
    rfl
  · show ((1 : ℝ) - 3 / 2) * (3 / 2) < 0
    norm_num

/-- Claim C8 (amended): for every constructed instance, elementwise
`variance = q * p` is at most 1/4 and attains 1/4 exactly where `p = 1/2`;
it is nonnegative wherever `p` lies in `[0, 1]` (which the non-strict
constructor does not guarantee). -/
theorem claim_C8_amended (b : Bernoulli) (hb : b.Constructed) :
    ∀ idx, IdxOk b.p.shape idx →
      ((0 ≤ b.p.data idx ∧ b.p.data idx ≤ 1) → 0 ≤ b.variance.data idx) ∧
        b.variance.data idx ≤ 1 / 4 ∧
        (b.variance.data idx = 1 / 4 ↔ b.p.data idx = 1 / 2) := by
  intro idx hidx
  have hqs := constructed_q_shape b hb
  have hqi : IdxOk b.q.shape idx := by rw [hqs]; exact hidx
  have hvar : b.variance.data idx = (1 - b.p.data idx) * b.p.data idx := by
    show (Tensor.bin (fun a c => a * c) b.q b.p).data idx = _
    rw [bin_same_data _ _ _ hqs idx hqi, constructed_q_data b hb idx hidx]
  rw [hvar]
  refine ⟨fun hr => mul_nonneg (by linarith [hr.2]) hr.1, ?_, ?_⟩
  · nlinarith [sq_nonneg (b.p.data idx - 1 / 2)]
  · constructor
    · intro h
      have hsq : (b.p.data idx - 1 / 2) ^ 2 = 0 := by nlinarith
      have hz := (pow_eq_zero_iff two_ne_zero).1 hsq
      linarith [sub_eq_zero.1 hz]
    · intro h
      rw [h]
      norm_num

theorem claim_C8_witness :
    0 ≤ bern0.variance.data [] ∧ bern0.variance.data [] ≤ 1 / 4 := by
  have h := claim_C8_amended bern0 bern0_constructed [] idxOk_nil_nil
  have hhalf : bern0.p.data [] = 1 / 2 := by
    show sigmoid 0 = 1 / 2
    exact sigmoid_zero
  exact ⟨h.1 (by rw [hhalf]; norm_num), h.2.1⟩

/-- Claim C9: with a supplied seed, sample is a function of the seed alone —
two calls with the same count and seed agree whatever the ambient
nondeterministic generator state; no claim is made for unseeded draws. -/
theorem claim_C9 (b : Bernoulli) (noise : Nat → List Nat → List Nat → ℝ)
    (state1 state2 : Nat) (s n : Nat) :
    b.sample noise state1 (some s) n = b.sample noise state2 (some s) n := rfl

/-- Claim C10: the uniform noise tensor drawn inside sample has dtype float32
for every instance, independently of the dtype of the stored parameters, and
sample thresholds exactly that float32 tensor against the stored probability
tensor (left in its own dtype) before casting to the sample dtype. -/
theorem claim_C10 (b : Bernoulli) (noise : Nat → List Nat → List Nat → ℝ)
    (state : Nat) (seed : Option Nat) (n : Nat) :
    (b.sampleUniform noise state seed n).dtype = DType.float32 ∧
      b.sample noise state seed n =
        Tensor.cast b.dtype (less (b.sampleUniform noise state seed n) b.p) :=
  ⟨rfl, rfl⟩

end
